import Mathlib

/-!
Shallow embedding of `skimage/filter/denoise.py` (Chambolle total-variation
denoising, 2-D and 3-D, plus the `tv_denoise` and `denoise_bilateral`
dispatchers) and proofs of the specification claims about it.

Arrays are modelled as total functions from natural indices to rationals;
the floating-point square root is an explicit parameter `sq : ℚ → ℚ` of the
optimizer (every structural claim holds for an arbitrary square-root
function; concrete runs instantiate it with `ratSqrt`, which coincides with
the real square root on the perfect-square arguments those runs produce).
-/

namespace Denoise

/-- A 2-D array of floats: values at out-of-range indices are irrelevant
(all sums range over the image domain only). -/
abbrev A2 : Type := ℕ → ℕ → ℚ

/-- A 3-D array of floats. -/
abbrev A3 : Type := ℕ → ℕ → ℕ → ℚ

/-- The all-zeros 2-D array (`np.zeros_like`). -/
def zero2 : A2 := fun _ _ => 0

/-- The all-zeros 3-D array (`np.zeros_like`). -/
def zero3 : A3 := fun _ _ _ => 0

/-- Sum of the entries of a 2-D array over the `m × n` image domain. -/
def sum2 (m n : ℕ) (f : A2) : ℚ :=
  ∑ i ∈ Finset.range m, ∑ j ∈ Finset.range n, f i j

/-- Sum of the entries of a 3-D array over the `m × n × p` image domain. -/
def sum3 (m n p : ℕ) (f : A3) : ℚ :=
  ∑ i ∈ Finset.range m, ∑ j ∈ Finset.range n, ∑ k ∈ Finset.range p, f i j k

/-- `d = -px - py` (source: `d = -px - py`). -/
def dStep2a (px py : A2) : A2 := fun i j => -px i j - py i j

/-- `d[1:] += px[:-1]`: rows `i ≥ 1` receive the dual value from the
previous row. -/
def dStep2b (px d : A2) : A2 := fun i j =>
  if i = 0 then d i j else d i j + px (i - 1) j

/-- `d[:, 1:] += py[:, :-1]`: columns `j ≥ 1` receive the dual value from
the previous column. -/
def dStep2c (py d : A2) : A2 := fun i j =>
  if j = 0 then d i j else d i j + py i (j - 1)

/-- The 2-D divergence field as the source builds it, by three successive
array statements. -/
def div2 (px py : A2) : A2 := dStep2c py (dStep2b px (dStep2a px py))

/-- Forward difference along axis 0 (`gx[:-1] = np.diff(out, axis=0)`);
the last row is left at its initial zero. -/
def grad2x (m : ℕ) (a : A2) : A2 := fun i j =>
  if i + 1 < m then a (i + 1) j - a i j else 0

/-- Forward difference along axis 1 (`gy[:, :-1] = np.diff(out, axis=1)`);
the last column is left at its initial zero. -/
def grad2y (n : ℕ) (a : A2) : A2 := fun i j =>
  if j + 1 < n then a i (j + 1) - a i j else 0

/-- The mutable buffers of one `_tv_denoise_2d` invocation that survive
across loop iterations: the input image and the two dual fields.
(The gradient and divergence buffers are rewritten from scratch each
iteration before being read, so they carry no state across iterations.) -/
structure St2 where
  im : A2
  px : A2
  py : A2

/-- One iteration of the `_tv_denoise_2d` loop body, following the source
statement by statement: divergence, estimate `out`, fidelity energy,
gradients, gradient norm, TV energy, dual descent step and shared
normalization, final division of `E` by the element count.
Returns the updated state, the estimate `out`, and the energy `E`. -/
def body2 (m n : ℕ) (sq : ℚ → ℚ) (w : ℚ) (s : St2) : St2 × A2 × ℚ :=
  let d := div2 s.px s.py
  let out : A2 := fun i j => s.im i j + d i j
  let E0 := sum2 m n (fun i j => d i j ^ 2)
  let gx := grad2x m out
  let gy := grad2y n out
  let norm : A2 := fun i j => sq (gx i j ^ 2 + gy i j ^ 2)
  let E1 := E0 + w * sum2 m n norm
  let ns : A2 := fun i j => norm i j * (1 / 2 / w) + 1
  let px2 : A2 := fun i j => (s.px i j - 1 / 4 * gx i j) / ns i j
  let py2 : A2 := fun i j => (s.py i j - 1 / 4 * gy i j) / ns i j
  (⟨s.im, px2, py2⟩, out, E1 / ((m : ℚ) * (n : ℚ)))

/-- `d = -px - py - pz` (source, 3-D). -/
def dStep3a (px py pz : A3) : A3 := fun i j k => -px i j k - py i j k - pz i j k

/-- `d[1:] += px[:-1]` (3-D). -/
def dStep3b (px d : A3) : A3 := fun i j k =>
  if i = 0 then d i j k else d i j k + px (i - 1) j k

/-- `d[:, 1:] += py[:, :-1]` (3-D). -/
def dStep3c (py d : A3) : A3 := fun i j k =>
  if j = 0 then d i j k else d i j k + py i (j - 1) k

/-- `d[:, :, 1:] += pz[:, :, :-1]` (3-D). -/
def dStep3d (pz d : A3) : A3 := fun i j k =>
  if k = 0 then d i j k else d i j k + pz i j (k - 1)

/-- The 3-D divergence field as the source builds it. -/
def div3 (px py pz : A3) : A3 := dStep3d pz (dStep3c py (dStep3b px (dStep3a px py pz)))

/-- Forward difference along axis 0, 3-D. -/
def grad3x (m : ℕ) (a : A3) : A3 := fun i j k =>
  if i + 1 < m then a (i + 1) j k - a i j k else 0

/-- Forward difference along axis 1, 3-D. -/
def grad3y (n : ℕ) (a : A3) : A3 := fun i j k =>
  if j + 1 < n then a i (j + 1) k - a i j k else 0

/-- Forward difference along axis 2, 3-D. -/
def grad3z (p : ℕ) (a : A3) : A3 := fun i j k =>
  if k + 1 < p then a i j (k + 1) - a i j k else 0

/-- The cross-iteration buffers of one `_tv_denoise_3d` invocation. -/
structure St3 where
  im : A3
  px : A3
  py : A3
  pz : A3

/-- One iteration of the `_tv_denoise_3d` loop body, statement by
statement as in the source (descent step `1/6` per axis). -/
def body3 (m n p : ℕ) (sq : ℚ → ℚ) (w : ℚ) (s : St3) : St3 × A3 × ℚ :=
  let d := div3 s.px s.py s.pz
  let out : A3 := fun i j k => s.im i j k + d i j k
  let E0 := sum3 m n p (fun i j k => d i j k ^ 2)
  let gx := grad3x m out
  let gy := grad3y n out
  let gz := grad3z p out
  let norm : A3 := fun i j k => sq (gx i j k ^ 2 + gy i j k ^ 2 + gz i j k ^ 2)
  let E1 := E0 + w * sum3 m n p norm
  let ns : A3 := fun i j k => norm i j k * (1 / 2 / w) + 1
  let px2 : A3 := fun i j k => (s.px i j k - 1 / 6 * gx i j k) / ns i j k
  let py2 : A3 := fun i j k => (s.py i j k - 1 / 6 * gy i j k) / ns i j k
  let pz2 : A3 := fun i j k => (s.pz i j k - 1 / 6 * gz i j k) / ns i j k
  (⟨s.im, px2, py2, pz2⟩, out, E1 / ((m : ℚ) * (n : ℚ) * (p : ℚ)))

/-- The `while i < n_iter_max` driver shared verbatim by `_tv_denoise_2d`
and `_tv_denoise_3d`: `fuel` is the number of loop-condition successes
remaining (`n_iter_max - i`), `i` the loop counter, `Einit`/`Eprev` the
energy bookkeeping (dummy values until iteration 0 sets them), `s` the
buffer state and `prev` the `out` of the previous iteration (`none` while
`out` is still an unbound local).  Returns the final `out` (or `none` if
the body never ran, modelling the unbound-local failure of `return out`),
the loop counter at exit (= number of body executions), and the final
buffer state. -/
def tvLoop {σ α : Type} (body : σ → σ × α × ℚ) (eps : ℚ) :
    ℕ → ℕ → ℚ → ℚ → σ → Option α → Option α × ℕ × σ
  | 0, i, _, _, s, prev => (prev, i, s)
  | f + 1, i, Einit, Eprev, s, _ =>
    let r := body s
    if i = 0 then
      tvLoop body eps f (i + 1) r.2.2 r.2.2 r.1 (some r.2.1)
    else if |Eprev - r.2.2| < eps * Einit then
      (some r.2.1, i + 1, r.1)
    else
      tvLoop body eps f (i + 1) Einit r.2.2 r.1 (some r.2.1)

/-- `_tv_denoise_2d im weight eps n_iter_max`: dual fields start at zero,
the loop runs at most `nmax` times. -/
def tvRun2 (m n : ℕ) (sq : ℚ → ℚ) (w eps : ℚ) (im : A2) (nmax : ℕ) :
    Option A2 × ℕ × St2 :=
  tvLoop (body2 m n sq w) eps nmax 0 0 0 ⟨im, zero2, zero2⟩ none

/-- `_tv_denoise_3d im weight eps n_iter_max`. -/
def tvRun3 (m n p : ℕ) (sq : ℚ → ℚ) (w eps : ℚ) (im : A3) (nmax : ℕ) :
    Option A3 × ℕ × St3 :=
  tvLoop (body3 m n p sq w) eps nmax 0 0 0 ⟨im, zero3, zero3, zero3⟩ none

/-- A computable stand-in for the floating-point square root, exact on
arguments that are squares of rationals (in particular `ratSqrt 0 = 0`);
used only to instantiate the abstract `sq` parameter in concrete runs
whose square-root arguments are such squares. -/
def ratSqrt (q : ℚ) : ℚ := (Nat.sqrt q.num.toNat : ℚ) / (Nat.sqrt q.den : ℚ)

/-- Spec formula for the 2-D divergence: minus the sum of the dual fields
plus, along each axis, the dual value from the previous index, with index
0 along each axis receiving no previous-neighbor contribution. -/
def divSpec2 (px py : A2) : A2 := fun i j =>
  -px i j - py i j + (if i = 0 then 0 else px (i - 1) j)
    + (if j = 0 then 0 else py i (j - 1))

/-- Spec formula for the 3-D divergence. -/
def divSpec3 (px py pz : A3) : A3 := fun i j k =>
  -px i j k - py i j k - pz i j k + (if i = 0 then 0 else px (i - 1) j k)
    + (if j = 0 then 0 else py i (j - 1) k)
    + (if k = 0 then 0 else pz i j (k - 1))

/-- The buffer state reached after `k` executions of the loop body,
starting from `s0`. -/
def loopSt {σ α : Type} (body : σ → σ × α × ℚ) (s0 : σ) : ℕ → σ
  | 0 => s0
  | k + 1 => (body (loopSt body s0 k)).1

/-- The estimate `out` computed by the loop body of iteration `k`. -/
def loopOut {σ α : Type} (body : σ → σ × α × ℚ) (s0 : σ) (k : ℕ) : α :=
  (body (loopSt body s0 k)).2.1

/-- The energy `E` computed by the loop body of iteration `k`. -/
def loopE {σ α : Type} (body : σ → σ × α × ℚ) (s0 : σ) (k : ℕ) : ℚ :=
  (body (loopSt body s0 k)).2.2

/-- The stopping test of iteration `k` as the spec states it: `k ≥ 1` and
`|E_previous - E| < eps * E_init`, where `E_previous` is the energy of
iteration `k - 1` and `E_init` that of iteration 0. -/
def stopP {σ α : Type} (body : σ → σ × α × ℚ) (s0 : σ) (eps : ℚ) (k : ℕ) : Bool :=
  decide (1 ≤ k ∧ |loopE body s0 (k - 1) - loopE body s0 k| < eps * loopE body s0 0)

/-- The first iteration index in `[1, nmax)` at which the stopping test
fires, if any. -/
def firstStop {σ α : Type} (body : σ → σ × α × ℚ) (s0 : σ) (eps : ℚ) (nmax : ℕ) :
    Option ℕ :=
  (List.range nmax).find? (stopP body s0 eps)

/-- Spec-level description of the whole loop, written from the spec's
words: if the stopping test first fires at iteration `k`, the loop returns
the `out` of iteration `k` after `k + 1` body executions; otherwise it
returns the `out` of the last iteration after `nmax` body executions
(meaningful for `nmax ≥ 1`). -/
def loopSpec {σ α : Type} (body : σ → σ × α × ℚ) (s0 : σ) (eps : ℚ) (nmax : ℕ) :
    Option α × ℕ × σ :=
  match firstStop body s0 eps nmax with
  | some k => (some (loopOut body s0 k), k + 1, loopSt body s0 (k + 1))
  | none => (some (loopOut body s0 (nmax - 1)), nmax, loopSt body s0 nmax)

/-! ### The `tv_denoise` and `denoise_bilateral` dispatchers -/

/-- A numpy array as the dispatchers see it: a dtype kind character, a
shape, and the sample values indexed by multi-index. -/
structure PyImage where
  kind : Char
  shape : List ℕ
  data : List ℕ → ℚ

/-- `ndim`: the rank of the array. -/
def PyImage.ndim (a : PyImage) : ℕ := a.shape.length

/-- View a rank-2 `PyImage` as a 2-D array. -/
def at2 (a : PyImage) : A2 := fun i j => a.data [i, j]

/-- View a rank-3 `PyImage` as a 3-D array. -/
def at3 (a : PyImage) : A3 := fun i j k => a.data [i, j, k]

/-- Package a 2-D float result back into a `PyImage` of the given shape. -/
def pack2 (sh : List ℕ) (a : A2) : PyImage :=
  ⟨'f', sh, fun idx => a (idx.getD 0 0) (idx.getD 1 0)⟩

/-- Package a 3-D float result back into a `PyImage` of the given shape. -/
def pack3 (sh : List ℕ) (a : A3) : PyImage :=
  ⟨'f', sh, fun idx => a (idx.getD 0 0) (idx.getD 1 0) (idx.getD 2 0)⟩

/-- The error kinds of the spec: rank rejection in `tv_denoise`, mode
rejection in `denoise_bilateral`, and the unbound-local failure of
`return out` when the loop body never ran. -/
inductive DenoiseError where
  | unsupportedDimensionality
  | invalidParameter
  | unboundLocal
deriving DecidableEq

/-- `_tv_denoise_2d` at the dispatcher level: run the optimizer on the
rank-2 data and package the result (or `none` for the unbound-local case). -/
def tvDenoise2 (sq : ℚ → ℚ) (w eps : ℚ) (a : PyImage) (nmax : ℕ) : Option PyImage :=
  ((tvRun2 (a.shape.getD 0 0) (a.shape.getD 1 0) sq w eps (at2 a) nmax).1).map
    (pack2 a.shape)

/-- `_tv_denoise_3d` at the dispatcher level. -/
def tvDenoise3 (sq : ℚ → ℚ) (w eps : ℚ) (a : PyImage) (nmax : ℕ) : Option PyImage :=
  ((tvRun3 (a.shape.getD 0 0) (a.shape.getD 1 0) (a.shape.getD 2 0) sq w eps
      (at3 a) nmax).1).map (pack3 a.shape)

/-- The rank dispatch of `tv_denoise` on the (already normalized) image:
rank 2 to the 2-D optimizer, rank 3 to the 3-D optimizer, anything else
fails with the dimensionality error. -/
def tvDispatch (sq : ℚ → ℚ) (a : PyImage) (w eps : ℚ) (nmax : ℕ) :
    Except DenoiseError PyImage :=
  if a.ndim = 2 then
    match tvDenoise2 sq w eps a nmax with
    | some r => .ok r
    | none => .error .unboundLocal
  else if a.ndim = 3 then
    match tvDenoise3 sq w eps a nmax with
    | some r => .ok r
    | none => .error .unboundLocal
  else
    .error .unsupportedDimensionality

/-- `tv_denoise im weight eps n_iter_max`, with the external normalization
collaborator `img_as_float` passed as the parameter `iaf`: the input is
converted iff its dtype kind is not `'f'`, then dispatched by rank. -/
def tv_denoise (sq : ℚ → ℚ) (iaf : PyImage → PyImage) (im : PyImage)
    (w eps : ℚ) (nmax : ℕ) : Except DenoiseError PyImage :=
  tvDispatch sq (if im.kind = 'f' then im else iaf im) w eps nmax

/-- The four border-handling modes accepted by `denoise_bilateral`. -/
def validModes : List String := ["constant", "wrap", "reflect", "nearest"]

/-- `np.squeeze` of a rank-3 array with a trailing singleton axis. -/
def squeeze3 (a : PyImage) : PyImage :=
  ⟨a.kind, a.shape.take 2, fun idx => a.data (idx ++ [0])⟩

/-- The type of the external compiled bilateral routines
(`_denoise._denoise_bilateral2d` / `3d`): image, window size,
`sigma_color`, `sigma_range`, `bins`, mode code, `cval`. -/
abbrev BilFn : Type := PyImage → ℕ → ℚ → ℚ → ℚ → ℕ → ℚ → PyImage

/-- `denoise_bilateral`, with the two external compiled routines passed as
parameters `f2` and `f3`: the input is viewed as doubles, the mode string
is validated against the four named values (rejected otherwise), the mode
is turned into the character code of its upcased first letter, and the
image is dispatched by post-squeeze rank. -/
def denoise_bilateral (f2 f3 : BilFn) (image : PyImage) (win : ℕ)
    (sc sr bins : ℚ) (mode : String) (cval : ℚ) : Except DenoiseError PyImage :=
  let img : PyImage := ⟨'f', image.shape, image.data⟩
  if mode ∈ validModes then
    let mcode := ((mode.toList.headD ' ').toUpper).toNat
    if img.ndim = 2 ∨ (img.ndim = 3 ∧ img.shape.getD 2 0 = 1) then
      let img2 := if img.ndim = 3 ∧ img.shape.getD 2 0 = 1 then squeeze3 img else img
      .ok (f2 img2 win sc sr bins mcode cval)
    else
      .ok (f3 img win sc sr bins mcode cval)
  else
    .error .invalidParameter

/-! ### Helper lemmas -/

lemma div2_eq_divSpec2 (px py : A2) : div2 px py = divSpec2 px py := by
  funext i j
  simp only [div2, dStep2a, dStep2b, dStep2c, divSpec2]
  by_cases hi : i = 0 <;> by_cases hj : j = 0 <;> simp [hi, hj]

lemma div3_eq_divSpec3 (px py pz : A3) : div3 px py pz = divSpec3 px py pz := by
  funext i j k
  simp only [div3, dStep3a, dStep3b, dStep3c, dStep3d, divSpec3]
  by_cases hi : i = 0 <;> by_cases hj : j = 0 <;> by_cases hk : k = 0 <;>
    simp [hi, hj, hk]

/-- C1: every iteration of the 2-D (resp. 3-D) TV loop computes the
divergence `d` as minus the sum of the dual fields plus, along each axis,
the dual value from the previous index (index 0 receiving no
previous-neighbor contribution), forms `out = image + d`, computes
forward-difference gradients of `out` with the last index along each axis
at zero, and computes `E = (sum d^2 + weight * sum sqrt(sum of squared
per-axis gradients)) / element count`. -/
theorem tv_iteration_formulas (m n p : ℕ) (sq : ℚ → ℚ) (w : ℚ) (s : St2) (t : St3) :
    ((body2 m n sq w s).2.1 = fun i j => s.im i j + divSpec2 s.px s.py i j)
    ∧ (body2 m n sq w s).2.2 =
        (sum2 m n (fun i j => divSpec2 s.px s.py i j ^ 2)
          + w * sum2 m n (fun i j =>
              sq (grad2x m ((body2 m n sq w s).2.1) i j ^ 2
                + grad2y n ((body2 m n sq w s).2.1) i j ^ 2)))
          / ((m : ℚ) * (n : ℚ))
    ∧ (∀ i j, i + 1 < m → grad2x m ((body2 m n sq w s).2.1) i j
        = (body2 m n sq w s).2.1 (i + 1) j - (body2 m n sq w s).2.1 i j)
    ∧ (∀ j, grad2x m ((body2 m n sq w s).2.1) (m - 1) j = 0)
    ∧ (∀ i, grad2y n ((body2 m n sq w s).2.1) i (n - 1) = 0)
    ∧ ((body3 m n p sq w t).2.1
        = fun i j k => t.im i j k + divSpec3 t.px t.py t.pz i j k)
    ∧ (body3 m n p sq w t).2.2 =
        (sum3 m n p (fun i j k => divSpec3 t.px t.py t.pz i j k ^ 2)
          + w * sum3 m n p (fun i j k =>
              sq (grad3x m ((body3 m n p sq w t).2.1) i j k ^ 2
                + grad3y n ((body3 m n p sq w t).2.1) i j k ^ 2
                + grad3z p ((body3 m n p sq w t).2.1) i j k ^ 2)))
          / ((m : ℚ) * (n : ℚ) * (p : ℚ))
    ∧ (∀ j k, grad3x m ((body3 m n p sq w t).2.1) (m - 1) j k = 0)
    ∧ (∀ i k, grad3y n ((body3 m n p sq w t).2.1) i (n - 1) k = 0)
    ∧ (∀ i j, grad3z p ((body3 m n p sq w t).2.1) i j (p - 1) = 0) := by
  have hd2 := div2_eq_divSpec2 s.px s.py
  have hd3 := div3_eq_divSpec3 t.px t.py t.pz
  refine ⟨?_, ?_, ?_, ?_, ?_, ?_, ?_, ?_, ?_, ?_⟩ <;>
    simp only [body2, body3] <;> simp only [hd2, hd3]
  · intro i j h
    simp [grad2x, h]
  · intro j
    simp only [grad2x]
    rw [if_neg (by omega)]
  · intro i
    simp only [grad2y]
    rw [if_neg (by omega)]
  · intro j k
    simp only [grad3x]
    rw [if_neg (by omega)]
  · intro i k
    simp only [grad3y]
    rw [if_neg (by omega)]
  · intro i j
    simp only [grad3z]
    rw [if_neg (by omega)]

/-- C2: in every iteration each dual field is updated as
`dual -= step * gradient` with `step = 1/(2 * number of axes)` (`1/4` per
axis in 2-D, `1/6` in 3-D) and then divided pointwise by the single shared
factor `norm * (0.5/weight) + 1`, `norm` being the gradient magnitude of
the estimate computed before any dual update of this iteration. -/
theorem tv_dual_update_formulas (m n p : ℕ) (sq : ℚ → ℚ) (w : ℚ) (s : St2) (t : St3) :
    ((body2 m n sq w s).1.px = fun i j =>
        (s.px i j - 1 / (2 * 2) * grad2x m ((body2 m n sq w s).2.1) i j)
          / (sq (grad2x m ((body2 m n sq w s).2.1) i j ^ 2
              + grad2y n ((body2 m n sq w s).2.1) i j ^ 2) * (1 / 2 / w) + 1))
    ∧ ((body2 m n sq w s).1.py = fun i j =>
        (s.py i j - 1 / (2 * 2) * grad2y n ((body2 m n sq w s).2.1) i j)
          / (sq (grad2x m ((body2 m n sq w s).2.1) i j ^ 2
              + grad2y n ((body2 m n sq w s).2.1) i j ^ 2) * (1 / 2 / w) + 1))
    ∧ ((body3 m n p sq w t).1.px = fun i j k =>
        (t.px i j k - 1 / (2 * 3) * grad3x m ((body3 m n p sq w t).2.1) i j k)
          / (sq (grad3x m ((body3 m n p sq w t).2.1) i j k ^ 2
              + grad3y n ((body3 m n p sq w t).2.1) i j k ^ 2
              + grad3z p ((body3 m n p sq w t).2.1) i j k ^ 2) * (1 / 2 / w) + 1))
    ∧ ((body3 m n p sq w t).1.py = fun i j k =>
        (t.py i j k - 1 / (2 * 3) * grad3y n ((body3 m n p sq w t).2.1) i j k)
          / (sq (grad3x m ((body3 m n p sq w t).2.1) i j k ^ 2
              + grad3y n ((body3 m n p sq w t).2.1) i j k ^ 2
              + grad3z p ((body3 m n p sq w t).2.1) i j k ^ 2) * (1 / 2 / w) + 1))
    ∧ ((body3 m n p sq w t).1.pz = fun i j k =>
        (t.pz i j k - 1 / (2 * 3) * grad3z p ((body3 m n p sq w t).2.1) i j k)
          / (sq (grad3x m ((body3 m n p sq w t).2.1) i j k ^ 2
              + grad3y n ((body3 m n p sq w t).2.1) i j k ^ 2
              + grad3z p ((body3 m n p sq w t).2.1) i j k ^ 2) * (1 / 2 / w) + 1)) := by
  have h4 : (1 : ℚ) / (2 * 2) = 1 / 4 := by norm_num
  have h6 : (1 : ℚ) / (2 * 3) = 1 / 6 := by norm_num
  refine ⟨?_, ?_, ?_, ?_, ?_⟩ <;> simp only [h4, h6] <;> rfl

lemma tvLoop_from {σ α : Type} (body : σ → σ × α × ℚ) (eps : ℚ) (s0 : σ) :
    ∀ (f i : ℕ), 1 ≤ i →
      tvLoop body eps f i (loopE body s0 0) (loopE body s0 (i - 1))
        (loopSt body s0 i) (some (loopOut body s0 (i - 1))) =
      match (List.range' i f).find? (stopP body s0 eps) with
      | some k => (some (loopOut body s0 k), k + 1, loopSt body s0 (k + 1))
      | none => (some (loopOut body s0 (i + f - 1)), i + f, loopSt body s0 (i + f)) := by
  intro f
  induction f with
  | zero =>
    intro i hi
    simp only [tvLoop, List.range']
    simp only [List.find?_nil, Nat.add_zero]
  | succ g ih =>
    intro i hi
    rw [List.range'_succ]
    have hS : (body (loopSt body s0 i)).1 = loopSt body s0 (i + 1) := rfl
    have hO : (body (loopSt body s0 i)).2.1 = loopOut body s0 i := rfl
    have hE : (body (loopSt body s0 i)).2.2 = loopE body s0 i := rfl
    simp only [tvLoop, hS, hO, hE]
    rw [if_neg (by omega : ¬ i = 0)]
    by_cases hstop : |loopE body s0 (i - 1) - loopE body s0 i| < eps * loopE body s0 0
    · rw [if_pos hstop]
      have hp : stopP body s0 eps i = true := by
        simp only [stopP, decide_eq_true_eq]
        exact ⟨hi, hstop⟩
      rw [List.find?_cons, hp]
    · rw [if_neg hstop]
      have hp : stopP body s0 eps i = false := by
        simp only [stopP, decide_eq_false_iff_not]
        intro hc
        exact hstop hc.2
      rw [List.find?_cons, hp]
      have h1 := ih (i + 1) (by omega)
      have e0 : i + 1 - 1 = i := by omega
      rw [e0] at h1
      rw [h1]
      have e1 : i + 1 + g = i + (g + 1) := by omega
      rw [e1]

lemma tvLoop_eq_loopSpec {σ α : Type} (body : σ → σ × α × ℚ) (eps : ℚ) (s0 : σ)
    (nmax : ℕ) (h : 1 ≤ nmax) :
    tvLoop body eps nmax 0 0 0 s0 none = loopSpec body s0 eps nmax := by
  obtain ⟨g, rfl⟩ : ∃ g, nmax = g + 1 := ⟨nmax - 1, by omega⟩
  have hfs : firstStop body s0 eps (g + 1)
      = (List.range' 1 g).find? (stopP body s0 eps) := by
    have hp0 : stopP body s0 eps 0 = false := by
      simp [stopP]
    rw [firstStop, List.range_eq_range', List.range'_succ, List.find?_cons, hp0]
  have h1 := tvLoop_from body eps s0 g 1 (le_refl 1)
  have hbody : tvLoop body eps (g + 1) 0 0 0 s0 none
      = tvLoop body eps g 1 (loopE body s0 0) (loopE body s0 0)
          (loopSt body s0 1) (some (loopOut body s0 0)) := rfl
  rw [hbody, h1, loopSpec, hfs]
  have e1 : 1 + g = g + 1 := by omega
  rw [e1]

/-- C3: the TV loop records `E_init = E_previous = E` on iteration 0 and
continues; afterwards it stops at the first iteration `k ≥ 1` with
`|E_previous - E| < eps * E_init` (with `E_previous` the previous
iteration's energy), returning that iteration's `out` after `k + 1` body
executions; if `max_iterations` is reached without the test firing it
returns the `out` of the last iteration. -/
theorem tv_loop_convergence_control (m n p : ℕ) (sq : ℚ → ℚ) (w eps : ℚ)
    (im2 : A2) (im3 : A3) (nmax : ℕ) (h : 1 ≤ nmax) :
    tvRun2 m n sq w eps im2 nmax
      = loopSpec (body2 m n sq w) ⟨im2, zero2, zero2⟩ eps nmax
    ∧ tvRun3 m n p sq w eps im3 nmax
      = loopSpec (body3 m n p sq w) ⟨im3, zero3, zero3, zero3⟩ eps nmax :=
  ⟨tvLoop_eq_loopSpec _ _ _ _ h, tvLoop_eq_loopSpec _ _ _ _ h⟩

/-- Witness for C3 at a concrete instance. -/
theorem tv_loop_convergence_control_witness :
    1 ≤ 1
    ∧ (tvRun2 1 1 ratSqrt 50 (1 / 2) zero2 1
        = loopSpec (body2 1 1 ratSqrt 50) ⟨zero2, zero2, zero2⟩ (1 / 2) 1
      ∧ tvRun3 1 1 1 ratSqrt 50 (1 / 2) zero3 1
        = loopSpec (body3 1 1 1 ratSqrt 50) ⟨zero3, zero3, zero3, zero3⟩ (1 / 2) 1) :=
  ⟨le_refl 1,
    tv_loop_convergence_control 1 1 1 ratSqrt 50 (1 / 2) zero2 zero3 1 (le_refl 1)⟩

lemma body2_zero_st (m n : ℕ) (sq : ℚ → ℚ) (w : ℚ) (h0 : sq 0 = 0) :
    (body2 m n sq w ⟨zero2, zero2, zero2⟩).1 = (⟨zero2, zero2, zero2⟩ : St2) := by
  have hdz : div2 zero2 zero2 = zero2 := by
    rw [div2_eq_divSpec2]
    funext i j
    simp [divSpec2, zero2]
  have hout : (fun i j => (zero2 : A2) i j + zero2 i j) = zero2 := by
    funext i j
    simp [zero2]
  have hgx : grad2x m zero2 = zero2 := by
    funext i j
    simp [grad2x, zero2]
  have hgy : grad2y n zero2 = zero2 := by
    funext i j
    simp [grad2y, zero2]
  simp only [body2, hdz, hout, hgx, hgy]
  simp [zero2, h0]
  rfl

lemma body2_zero_E (m n : ℕ) (sq : ℚ → ℚ) (w : ℚ) (h0 : sq 0 = 0) :
    (body2 m n sq w ⟨zero2, zero2, zero2⟩).2.2 = 0 := by
  have hdz : div2 zero2 zero2 = zero2 := by
    rw [div2_eq_divSpec2]
    funext i j
    simp [divSpec2, zero2]
  have hout : (fun i j => (zero2 : A2) i j + zero2 i j) = zero2 := by
    funext i j
    simp [zero2]
  have hgx : grad2x m zero2 = zero2 := by
    funext i j
    simp [grad2x, zero2]
  have hgy : grad2y n zero2 = zero2 := by
    funext i j
    simp [grad2y, zero2]
  simp only [body2, hdz, hout, hgx, hgy]
  simp [sum2, zero2, h0]

lemma body3_zero_st (m n p : ℕ) (sq : ℚ → ℚ) (w : ℚ) (h0 : sq 0 = 0) :
    (body3 m n p sq w ⟨zero3, zero3, zero3, zero3⟩).1
      = (⟨zero3, zero3, zero3, zero3⟩ : St3) := by
  have hdz : div3 zero3 zero3 zero3 = zero3 := by
    rw [div3_eq_divSpec3]
    funext i j k
    simp [divSpec3, zero3]
  have hout : (fun i j k => (zero3 : A3) i j k + zero3 i j k) = zero3 := by
    funext i j k
    simp [zero3]
  have hgx : grad3x m zero3 = zero3 := by
    funext i j k
    simp [grad3x, zero3]
  have hgy : grad3y n zero3 = zero3 := by
    funext i j k
    simp [grad3y, zero3]
  have hgz : grad3z p zero3 = zero3 := by
    funext i j k
    simp [grad3z, zero3]
  simp only [body3, hdz, hout, hgx, hgy, hgz]
  simp [zero3, h0]
  rfl

lemma body3_zero_E (m n p : ℕ) (sq : ℚ → ℚ) (w : ℚ) (h0 : sq 0 = 0) :
    (body3 m n p sq w ⟨zero3, zero3, zero3, zero3⟩).2.2 = 0 := by
  have hdz : div3 zero3 zero3 zero3 = zero3 := by
    rw [div3_eq_divSpec3]
    funext i j k
    simp [divSpec3, zero3]
  have hout : (fun i j k => (zero3 : A3) i j k + zero3 i j k) = zero3 := by
    funext i j k
    simp [zero3]
  have hgx : grad3x m zero3 = zero3 := by
    funext i j k
    simp [grad3x, zero3]
  have hgy : grad3y n zero3 = zero3 := by
    funext i j k
    simp [grad3y, zero3]
  have hgz : grad3z p zero3 = zero3 := by
    funext i j k
    simp [grad3z, zero3]
  simp only [body3, hdz, hout, hgx, hgy, hgz]
  simp [sum3, zero3, h0]

lemma tvLoop_fixed {σ α : Type} (body : σ → σ × α × ℚ) (eps : ℚ) (s : σ)
    (hb1 : (body s).1 = s) (hb2 : (body s).2.2 = 0) :
    ∀ (f i : ℕ) (prev : Option α), 1 ≤ i →
      tvLoop body eps f i 0 0 s prev
        = ((if f = 0 then prev else some (body s).2.1), i + f, s) := by
  intro f
  induction f with
  | zero =>
    intro i prev hi
    simp [tvLoop]
  | succ g ih =>
    intro i prev hi
    simp only [tvLoop, hb1, hb2]
    rw [if_neg (by omega : ¬ i = 0)]
    rw [if_neg (by simp : ¬ |(0 : ℚ) - 0| < eps * 0)]
    rw [ih (i + 1) (some (body s).2.1) (by omega)]
    have e1 : i + 1 + g = i + (g + 1) := by omega
    rw [e1]
    simp

lemma tvLoop_fixed_run {σ α : Type} (body : σ → σ × α × ℚ) (eps : ℚ) (s : σ)
    (hb1 : (body s).1 = s) (hb2 : (body s).2.2 = 0) (nmax : ℕ) :
    tvLoop body eps nmax 0 0 0 s none
      = ((if nmax = 0 then none else some (body s).2.1), nmax, s) := by
  match nmax with
  | 0 => rfl
  | g + 1 =>
    have h1 : tvLoop body eps (g + 1) 0 0 0 s none
        = tvLoop body eps g 1 (body s).2.2 (body s).2.2 (body s).1
            (some (body s).2.1) := rfl
    rw [h1, hb1, hb2, tvLoop_fixed body eps s hb1 hb2 g 1 (some (body s).2.1) (le_refl 1)]
    simp
    omega

lemma ratSqrt_zero : ratSqrt 0 = 0 := by
  norm_num [ratSqrt]

/-- C4, counterexample: on the all-zero 2-by-2 image the energy is 0 at
every iteration, the strict stopping test never fires, and with
`eps = 1/2` and the default `max_iterations = 200` the loop executes 200
iterations — not at most 2 as the claim asserts for every valid input. -/
theorem tv_eps_half_not_two_iterations :
    (tvRun2 2 2 ratSqrt 50 (1 / 2) zero2 200).2.1 = 200
    ∧ ¬ (tvRun2 2 2 ratSqrt 50 (1 / 2) zero2 200).2.1 ≤ 2 := by
  have h0 : ratSqrt 0 = 0 := ratSqrt_zero
  have h := tvLoop_fixed_run (body2 2 2 ratSqrt 50) (1 / 2) ⟨zero2, zero2, zero2⟩
    (body2_zero_st 2 2 ratSqrt 50 h0) (body2_zero_E 2 2 ratSqrt 50 h0) 200
  have h2 : tvRun2 2 2 ratSqrt 50 (1 / 2) zero2 200
      = tvLoop (body2 2 2 ratSqrt 50) (1 / 2) 200 0 0 0 ⟨zero2, zero2, zero2⟩ none := rfl
  have h3 : (tvRun2 2 2 ratSqrt 50 (1 / 2) zero2 200).2.1 = 200 := by
    rw [h2, h]
  exact ⟨h3, by rw [h3]; decide⟩

/-- C4, amended: the bound does not hold for every valid input — on a
constant (all-zero) image every iteration has `E = 0`, so the strict test
`|E_previous - E| < eps * E_init` (with `E_init = 0`) never fires and the
loop runs exactly `max_iterations` iterations for every `eps`; in
particular with `eps` at machine epsilon and `max_iterations = 5` it runs
exactly 5 iterations, but with `eps = 0.5` it is not bounded by 2
iterations. -/
theorem tv_constant_image_runs_full (m n p nmax : ℕ) (sq : ℚ → ℚ) (w eps : ℚ)
    (h0 : sq 0 = 0) :
    (tvRun2 m n sq w eps zero2 nmax).2.1 = nmax
    ∧ (tvRun3 m n p sq w eps zero3 nmax).2.1 = nmax := by
  constructor
  · have h := tvLoop_fixed_run (body2 m n sq w) eps ⟨zero2, zero2, zero2⟩
      (body2_zero_st m n sq w h0) (body2_zero_E m n sq w h0) nmax
    have h2 : tvRun2 m n sq w eps zero2 nmax
        = tvLoop (body2 m n sq w) eps nmax 0 0 0 ⟨zero2, zero2, zero2⟩ none := rfl
    rw [h2, h]
  · have h := tvLoop_fixed_run (body3 m n p sq w) eps ⟨zero3, zero3, zero3, zero3⟩
      (body3_zero_st m n p sq w h0) (body3_zero_E m n p sq w h0) nmax
    have h2 : tvRun3 m n p sq w eps zero3 nmax
        = tvLoop (body3 m n p sq w) eps nmax 0 0 0 ⟨zero3, zero3, zero3, zero3⟩ none := rfl
    rw [h2, h]

/-- Witness for the amended C4: with `eps = 2 ^ (-52)` (machine epsilon)
and `max_iterations = 5`, the loop on the all-zero image runs exactly 5
iterations, in 2-D and in 3-D. -/
theorem tv_constant_image_runs_full_witness :
    ratSqrt 0 = 0
    ∧ (tvRun2 2 2 ratSqrt 50 (1 / 2 ^ 52) zero2 5).2.1 = 5
    ∧ (tvRun3 2 2 2 ratSqrt 50 (1 / 2 ^ 52) zero3 5).2.1 = 5 :=
  ⟨ratSqrt_zero,
    (tv_constant_image_runs_full 2 2 2 5 ratSqrt 50 (1 / 2 ^ 52) ratSqrt_zero).1,
    (tv_constant_image_runs_full 2 2 2 5 ratSqrt 50 (1 / 2 ^ 52) ratSqrt_zero).2⟩

lemma tvLoop_st_inv {σ α : Type} (body : σ → σ × α × ℚ) (eps : ℚ) (P : σ → Prop)
    (hP : ∀ s, P s → P (body s).1) :
    ∀ (f i : ℕ) (a b : ℚ) (s : σ) (prev : Option α), P s →
      P (tvLoop body eps f i a b s prev).2.2 := by
  intro f
  induction f with
  | zero =>
    intro i a b s prev hs
    exact hs
  | succ g ih =>
    intro i a b s prev hs
    simp only [tvLoop]
    by_cases hi : i = 0
    · rw [if_pos hi]
      exact ih _ _ _ _ _ (hP s hs)
    · rw [if_neg hi]
      by_cases ht : |b - (body s).2.2| < eps * a
      · rw [if_pos ht]
        exact hP s hs
      · rw [if_neg ht]
        exact ih _ _ _ _ _ (hP s hs)

/-- C9: the optimizer never mutates the caller's input: after any number
of iterations of either loop, the image buffer in the final state still
holds exactly the input values (the dual/gradient/divergence buffers are
separate, and the returned estimate is a fresh pointwise computation
`image + d` of each iteration). -/
theorem tv_input_buffer_preserved (m n p : ℕ) (sq : ℚ → ℚ) (w eps : ℚ)
    (im2 : A2) (im3 : A3) (nmax : ℕ) :
    ((tvRun2 m n sq w eps im2 nmax).2.2).im = im2
    ∧ ((tvRun3 m n p sq w eps im3 nmax).2.2).im = im3 := by
  constructor
  · exact tvLoop_st_inv (body2 m n sq w) eps (fun s => s.im = im2)
      (fun s h => h) nmax 0 0 0 ⟨im2, zero2, zero2⟩ none rfl
  · exact tvLoop_st_inv (body3 m n p sq w) eps (fun s => s.im = im3)
      (fun s h => h) nmax 0 0 0 ⟨im3, zero3, zero3, zero3⟩ none rfl

lemma tvLoop_some_isSome {σ α : Type} (body : σ → σ × α × ℚ) (eps : ℚ) :
    ∀ (f i : ℕ) (a b : ℚ) (s : σ) (o : α),
      ((tvLoop body eps f i a b s (some o)).1).isSome = true := by
  intro f
  induction f with
  | zero =>
    intro i a b s o
    rfl
  | succ g ih =>
    intro i a b s o
    simp only [tvLoop]
    by_cases hi : i = 0
    · rw [if_pos hi]
      exact ih _ _ _ _ _
    · rw [if_neg hi]
      by_cases ht : |b - (body s).2.2| < eps * a
      · rw [if_pos ht]
        rfl
      · rw [if_neg ht]
        exact ih _ _ _ _ _

lemma tvLoop_pos_isSome {σ α : Type} (body : σ → σ × α × ℚ) (eps : ℚ) (s : σ)
    (g : ℕ) : ((tvLoop body eps (g + 1) 0 0 0 s none).1).isSome = true := by
  have h : tvLoop body eps (g + 1) 0 0 0 s none
      = tvLoop body eps g 1 (body s).2.2 (body s).2.2 (body s).1
          (some (body s).2.1) := rfl
  rw [h]
  exact tvLoop_some_isSome body eps g 1 _ _ _ _

/-- C10: with `max_iterations = 0` the loop body never runs and the final
`return out` has no value to return (modelled as `none`, the unbound-local
failure); `max_iterations ≥ 1` guarantees a defined return value. -/
theorem tv_return_requires_iteration (m n p : ℕ) (sq : ℚ → ℚ) (w eps : ℚ)
    (im2 : A2) (im3 : A3) (nmax : ℕ) :
    (nmax = 0 → (tvRun2 m n sq w eps im2 nmax).1 = none
      ∧ (tvRun3 m n p sq w eps im3 nmax).1 = none)
    ∧ (1 ≤ nmax → ((tvRun2 m n sq w eps im2 nmax).1).isSome = true
      ∧ ((tvRun3 m n p sq w eps im3 nmax).1).isSome = true) := by
  constructor
  · rintro rfl
    exact ⟨rfl, rfl⟩
  · intro h
    obtain ⟨g, rfl⟩ : ∃ g, nmax = g + 1 := ⟨nmax - 1, by omega⟩
    exact ⟨tvLoop_pos_isSome (body2 m n sq w) eps ⟨im2, zero2, zero2⟩ g,
      tvLoop_pos_isSome (body3 m n p sq w) eps ⟨im3, zero3, zero3, zero3⟩ g⟩

/-- Witness for C10 at concrete inputs: `max_iterations = 0` yields the
unbound-local failure, `max_iterations = 1` yields a defined result. -/
theorem tv_return_requires_iteration_witness :
    ((tvRun2 1 1 ratSqrt 50 (1 / 2) zero2 0).1 = none
      ∧ (tvRun3 1 1 1 ratSqrt 50 (1 / 2) zero3 0).1 = none)
    ∧ ((tvRun2 1 1 ratSqrt 50 (1 / 2) zero2 1).1).isSome = true
    ∧ ((tvRun3 1 1 1 ratSqrt 50 (1 / 2) zero3 1).1).isSome = true :=
  ⟨(tv_return_requires_iteration 1 1 1 ratSqrt 50 (1 / 2) zero2 zero3 0).1 rfl,
    (tv_return_requires_iteration 1 1 1 ratSqrt 50 (1 / 2) zero2 zero3 1).2 (le_refl 1)⟩

/-- C5: `tv_denoise` fails with the dimensionality error on any rank other
than 2 or 3 without ever invoking an optimizer, and routes rank-2 inputs
to the 2-D optimizer and rank-3 inputs to the 3-D optimizer (stated for
any normalization collaborator that preserves rank, as `img_as_float`
does). -/
theorem tv_denoise_rank_dispatch (sq : ℚ → ℚ) (iaf : PyImage → PyImage)
    (im : PyImage) (w eps : ℚ) (nmax : ℕ)
    (hiaf : ∀ x, (iaf x).ndim = x.ndim) :
    (im.ndim ≠ 2 → im.ndim ≠ 3 →
      tv_denoise sq iaf im w eps nmax = .error .unsupportedDimensionality)
    ∧ (im.ndim = 2 →
      tv_denoise sq iaf im w eps nmax =
        match tvDenoise2 sq w eps (if im.kind = 'f' then im else iaf im) nmax with
        | some r => .ok r
        | none => .error .unboundLocal)
    ∧ (im.ndim = 3 →
      tv_denoise sq iaf im w eps nmax =
        match tvDenoise3 sq w eps (if im.kind = 'f' then im else iaf im) nmax with
        | some r => .ok r
        | none => .error .unboundLocal) := by
  have hnd : (if im.kind = 'f' then im else iaf im).ndim = im.ndim := by
    by_cases hk : im.kind = 'f'
    · rw [if_pos hk]
    · rw [if_neg hk]
      exact hiaf im
  refine ⟨?_, ?_, ?_⟩
  · intro h2 h3
    simp only [tv_denoise, tvDispatch]
    rw [if_neg (by rw [hnd]; exact h2), if_neg (by rw [hnd]; exact h3)]
  · intro h2
    simp only [tv_denoise, tvDispatch]
    rw [if_pos (by rw [hnd]; exact h2)]
  · intro h3
    simp only [tv_denoise, tvDispatch]
    rw [if_neg (by rw [hnd, h3]; decide), if_pos (by rw [hnd]; exact h3)]

/-- Witness for C5: a rank-4 input is rejected with the dimensionality
error. -/
theorem tv_denoise_rank_dispatch_witness :
    tv_denoise ratSqrt (fun x => x) ⟨'f', [1, 1, 1, 1], fun _ => 0⟩ 50 (1 / 2) 1
      = .error .unsupportedDimensionality :=
  (tv_denoise_rank_dispatch ratSqrt (fun x => x) ⟨'f', [1, 1, 1, 1], fun _ => 0⟩
    50 (1 / 2) 1 (fun _ => rfl)).1 (by decide) (by decide)

/-- C6: `denoise_bilateral` rejects any mode string outside
`constant|wrap|reflect|nearest` with the parameter error before any
filtering work (the result does not depend on the filtering routines),
and for the four named values it dispatches and succeeds. -/
theorem bilateral_mode_validation (f2 f3 g2 g3 : BilFn) (image : PyImage)
    (win : ℕ) (sc sr bins : ℚ) (mode : String) (cval : ℚ) :
    (mode ∉ validModes →
      denoise_bilateral f2 f3 image win sc sr bins mode cval
          = .error .invalidParameter
        ∧ denoise_bilateral f2 f3 image win sc sr bins mode cval
          = denoise_bilateral g2 g3 image win sc sr bins mode cval)
    ∧ (mode ∈ validModes →
      ∃ r, denoise_bilateral f2 f3 image win sc sr bins mode cval = .ok r) := by
  constructor
  · intro hm
    have h1 : denoise_bilateral f2 f3 image win sc sr bins mode cval
        = .error .invalidParameter := by
      simp only [denoise_bilateral]
      rw [if_neg hm]
    have h2 : denoise_bilateral g2 g3 image win sc sr bins mode cval
        = .error .invalidParameter := by
      simp only [denoise_bilateral]
      rw [if_neg hm]
    exact ⟨h1, h1.trans h2.symm⟩
  · intro hm
    simp only [denoise_bilateral]
    rw [if_pos hm]
    split
    · exact ⟨_, rfl⟩
    · exact ⟨_, rfl⟩

/-- Witness for C6: mode `bogus` is rejected, mode `constant` succeeds. -/
theorem bilateral_mode_validation_witness :
    ( "bogus" ∉ validModes
      ∧ denoise_bilateral (fun i _ _ _ _ _ _ => i) (fun i _ _ _ _ _ _ => i)
          ⟨'f', [1, 1], fun _ => 0⟩ 5 1 1 10000 "bogus" 0
          = .error .invalidParameter)
    ∧ ( "constant" ∈ validModes
      ∧ ∃ r, denoise_bilateral (fun i _ _ _ _ _ _ => i) (fun i _ _ _ _ _ _ => i)
          ⟨'f', [1, 1], fun _ => 0⟩ 5 1 1 10000 "constant" 0 = .ok r) :=
  ⟨⟨by decide,
    ((bilateral_mode_validation (fun i _ _ _ _ _ _ => i) (fun i _ _ _ _ _ _ => i)
      (fun i _ _ _ _ _ _ => i) (fun i _ _ _ _ _ _ => i) ⟨'f', [1, 1], fun _ => 0⟩
      5 1 1 10000 "bogus" 0).1 (by decide)).1⟩,
   ⟨by decide,
    (bilateral_mode_validation (fun i _ _ _ _ _ _ => i) (fun i _ _ _ _ _ _ => i)
      (fun i _ _ _ _ _ _ => i) (fun i _ _ _ _ _ _ => i) ⟨'f', [1, 1], fun _ => 0⟩
      5 1 1 10000 "constant" 0).2 (by decide)⟩⟩

/-- C7: `tv_denoise` applies the external normalization collaborator to
its input exactly when the dtype kind is not `'f'`; a floating-point input
is passed to the rank dispatch unconverted (so the result does not depend
on the collaborator at all in that case). -/
theorem tv_denoise_normalization_iff (sq : ℚ → ℚ)
    (iaf iaf2 : PyImage → PyImage) (im : PyImage) (w eps : ℚ) (nmax : ℕ) :
    (im.kind = 'f' →
      tv_denoise sq iaf im w eps nmax = tvDispatch sq im w eps nmax
        ∧ tv_denoise sq iaf im w eps nmax = tv_denoise sq iaf2 im w eps nmax)
    ∧ (im.kind ≠ 'f' →
      tv_denoise sq iaf im w eps nmax = tvDispatch sq (iaf im) w eps nmax) := by
  constructor
  · intro hk
    constructor <;> simp only [tv_denoise, if_pos hk]
  · intro hk
    simp only [tv_denoise, if_neg hk]

/-- Witness for C7: a float input is dispatched unconverted independently
of the collaborator; a non-float (`'u'`) input is dispatched after
conversion. -/
theorem tv_denoise_normalization_iff_witness :
    (tv_denoise ratSqrt (fun x => x) ⟨'f', [1, 1], fun _ => 0⟩ 50 (1 / 2) 1
        = tvDispatch ratSqrt ⟨'f', [1, 1], fun _ => 0⟩ 50 (1 / 2) 1
      ∧ tv_denoise ratSqrt (fun x => x) ⟨'f', [1, 1], fun _ => 0⟩ 50 (1 / 2) 1
        = tv_denoise ratSqrt (fun _ => ⟨'f', [], fun _ => 0⟩)
            ⟨'f', [1, 1], fun _ => 0⟩ 50 (1 / 2) 1)
    ∧ tv_denoise ratSqrt (fun x => x) ⟨'u', [1, 1], fun _ => 0⟩ 50 (1 / 2) 1
        = tvDispatch ratSqrt ((fun x => x) (⟨'u', [1, 1], fun _ => 0⟩ : PyImage))
            50 (1 / 2) 1 :=
  ⟨(tv_denoise_normalization_iff ratSqrt (fun x => x)
      (fun _ => ⟨'f', [], fun _ => 0⟩) ⟨'f', [1, 1], fun _ => 0⟩ 50 (1 / 2) 1).1 rfl,
   (tv_denoise_normalization_iff ratSqrt (fun x => x)
      (fun _ => ⟨'f', [], fun _ => 0⟩) ⟨'u', [1, 1], fun _ => 0⟩ 50 (1 / 2) 1).2
      (by decide)⟩

/-- C8: `tv_denoise` is deterministic — two invocations on the same input
with the same parameters (and the same square root and normalization
collaborator) produce identical outputs. -/
theorem tv_denoise_deterministic (sq : ℚ → ℚ) (iaf : PyImage → PyImage)
    (im : PyImage) (w eps : ℚ) (nmax : ℕ)
    (r1 r2 : Except DenoiseError PyImage)
    (h1 : r1 = tv_denoise sq iaf im w eps nmax)
    (h2 : r2 = tv_denoise sq iaf im w eps nmax) : r1 = r2 := by
  rw [h1, h2]

/-- Witness for C8 at a concrete input. -/
theorem tv_denoise_deterministic_witness :
    tv_denoise ratSqrt (fun x => x) ⟨'f', [1, 1], fun _ => 0⟩ 50 (1 / 2) 1
      = tv_denoise ratSqrt (fun x => x) ⟨'f', [1, 1], fun _ => 0⟩ 50 (1 / 2) 1 :=
  tv_denoise_deterministic ratSqrt (fun x => x) ⟨'f', [1, 1], fun _ => 0⟩
    50 (1 / 2) 1 _ _ rfl rfl

end Denoise
